import Mathlib

/-!
# Verification of the UserOperation normalizer and call-data decoder

Shallow embedding of the core logic of `src/src/App.tsx` from the
`4337-userop-validator` repository:

* the JavaScript string helpers the code relies on (`String.prototype.trim`,
  `String.prototype.toLowerCase`, `BigInt(string)`, viem's `isHex`);
* `parseValue`, `parseHexValue`, `parseUserOpFromRaw` and the fields-mode
  branch of the `parsedUserOp` memo (UserOperation normalization);
* the `whatsabi`/`decodeFunctionData` pipeline of the `decodeCallData` query:
  ABI function lookup, recursive argument enrichment (`enrichArgs`) and the
  top-level decode;
* `formatAbiType` and the `hashesMatch` comparison.

Conventions of the embedding:

* JavaScript strings are Lean `String`s; computations are performed on their
  underlying `List Char`.
* `BigInt` values are Lean `Int` (arbitrary precision, as in JS).
* A JavaScript function that can throw is modelled with `Option`/`Except`;
  `none`/`.error` is a thrown exception.
* JSON values are modelled by the inductive `Json`.  JSON numbers are
  modelled as integers (integral values; float formatting is out of scope
  for the claims under consideration).
* Asynchronous collaborators (`whatsabi.autoload`, `decodeFunctionData`) are
  explicit functional parameters; `Promise.all` over independent lookups is
  positional collection, modelled as a structural map.
-/

/-! ## JavaScript string primitives -/

/-- The whitespace characters removed by `String.prototype.trim`
(the common ASCII whitespace plus NBSP and BOM). -/
def isJsWhitespace (c : Char) : Bool :=
  c == ' ' || c == '\t' || c == '\n' || c == '\r' || c == '\x0b' ||
    c == '\x0c' || c == ' ' || c == '﻿'

/-- `String.prototype.trim` on the character list: drop whitespace from both
ends. -/
def jsTrimList (l : List Char) : List Char :=
  ((l.dropWhile isJsWhitespace).reverse.dropWhile isJsWhitespace).reverse

/-- `value.trim()` for a JavaScript string. -/
def jsTrim (s : String) : String :=
  ⟨jsTrimList s.data⟩

/-- Hex digit as accepted by viem's `isHex` regular expression
`/^0x[0-9a-fA-F]*$/`. -/
def isHexDigitChar (c : Char) : Bool :=
  (decide ('0' ≤ c) && decide (c ≤ '9')) ||
    (decide ('a' ≤ c) && decide (c ≤ 'f')) ||
    (decide ('A' ≤ c) && decide (c ≤ 'F'))

/-- viem's `isHex(value)` (strict mode, the default): the string matches
`/^0x[0-9a-fA-F]*$/`.  Note that the empty digit run (`"0x"`) and odd-length
digit runs are accepted. -/
def isHex (s : String) : Bool :=
  match s.data with
  | '0' :: 'x' :: rest => rest.all isHexDigitChar
  | _ => false

/-- Numeric value of one digit character in the given base, as used by the
`StringToBigInt` conversion (`none` when the character is not a digit of the
base). -/
def digitValue (base : Nat) (c : Char) : Option Nat :=
  let v : Option Nat :=
    if decide ('0' ≤ c) && decide (c ≤ '9') then some (c.toNat - 48)
    else if decide ('a' ≤ c) && decide (c ≤ 'f') then some (c.toNat - 87)
    else if decide ('A' ≤ c) && decide (c ≤ 'F') then some (c.toNat - 55)
    else none
  match v with
  | some d => if d < base then some d else none
  | none => none

/-- Left-to-right accumulation of a digit string in the given base. -/
def parseDigitsAux (base : Nat) : List Char → Nat → Option Nat
  | [], acc => some acc
  | c :: cs, acc =>
    match digitValue base c with
    | some d => parseDigitsAux base cs (acc * base + d)
    | none => none

/-- Value of a non-empty digit string in the given base (`none` on an empty
string or on any non-digit character). -/
def parseDigits (base : Nat) (l : List Char) : Option Nat :=
  match l with
  | [] => none
  | _ => parseDigitsAux base l 0

/-- The grammar of the JavaScript `StringToBigInt` conversion, applied to an
already-trimmed character list: empty maps to `0`; a `0x`/`0X`, `0b`/`0B` or
`0o`/`0O` prefix selects hex/binary/octal with at least one digit; otherwise
an optionally signed decimal digit string.  `none` models the thrown
`SyntaxError`. -/
def strToIntL : List Char → Option Int
  | [] => some 0
  | '0' :: 'x' :: rest => (parseDigits 16 rest).map Int.ofNat
  | '0' :: 'X' :: rest => (parseDigits 16 rest).map Int.ofNat
  | '0' :: 'b' :: rest => (parseDigits 2 rest).map Int.ofNat
  | '0' :: 'B' :: rest => (parseDigits 2 rest).map Int.ofNat
  | '0' :: 'o' :: rest => (parseDigits 8 rest).map Int.ofNat
  | '0' :: 'O' :: rest => (parseDigits 8 rest).map Int.ofNat
  | '-' :: rest => (parseDigits 10 rest).map (fun n => -(n : Int))
  | '+' :: rest => (parseDigits 10 rest).map Int.ofNat
  | l => (parseDigits 10 l).map Int.ofNat

/-- The JavaScript `BigInt(string)` conversion (`StringToBigInt`): trim
whitespace, then apply the numeric-string grammar. -/
def stringToBigInt (s : String) : Option Int :=
  strToIntL (jsTrimList s.data)

/-! ## The two field parsers (`App.tsx` lines 156–176) -/

/-- `parseValue` (`App.tsx` 156–169): trim; empty is `0n`; a viem-hex string
is converted by `BigInt`; a trailing `"n"` is stripped before `BigInt`;
otherwise `BigInt` directly.  `none` models a thrown exception. -/
def parseValue (value : String) : Option Int :=
  let trimmed := jsTrim value
  if trimmed.data = [] then some 0
  else if isHex trimmed then stringToBigInt trimmed
  else if trimmed.data.getLast? = some 'n' then stringToBigInt ⟨trimmed.data.dropLast⟩
  else stringToBigInt trimmed

/-- `parseHexValue` (`App.tsx` 171–176): trim; empty or `"0x"` becomes the
empty byte-string marker `"0x"`; a viem-hex string is returned trimmed; any
other value throws `Invalid hex value: <raw input>`. -/
def parseHexValue (value : String) : Except String String :=
  let trimmed := jsTrim value
  if trimmed.data = [] ∨ trimmed = "0x" then Except.ok "0x"
  else if isHex trimmed then Except.ok trimmed
  else Except.error ("Invalid hex value: " ++ value)

example : parseValue "0x10" = some 16 := rfl
example : parseValue "10" = some 10 := rfl
example : parseValue "10n" = some 10 := rfl
example : parseValue "" = some 0 := rfl
example : parseValue "0x10n" = some 16 := rfl
example : parseValue "0b101" = some 5 := rfl
example : parseValue "-5" = some (-5) := rfl
example : parseValue " 12 " = some 12 := rfl
example : parseValue "0x" = none := rfl
example : parseValue "abc" = none := rfl
example : parseHexValue "0x123" = Except.ok "0x123" := rfl
example : parseHexValue " 0x1234 " = Except.ok "0x1234" := rfl
example : parseHexValue "" = Except.ok "0x" := rfl
example : parseHexValue "0x" = Except.ok "0x" := rfl
example : parseHexValue "zz" = Except.error "Invalid hex value: zz" := rfl

/-! ## JSON values and the UserOperation normalizer (`App.tsx` 178–197, 258–279) -/

/-- JSON values as produced by `JSON.parse`.  Numbers are modelled as
integers (integral values). -/
inductive Json where
  | null : Json
  | bool : Bool → Json
  | num : Int → Json
  | str : String → Json
  | arr : List Json → Json
  | obj : List (String × Json) → Json

/-- JavaScript property access `j[key]` on a parsed JSON value: only objects
carry these properties (later duplicate keys win, as in `JSON.parse`); every
other value yields `undefined` (`none`).  Access on `null` throws and is
handled by the caller. -/
def jsGetField (j : Json) (key : String) : Option Json :=
  match j with
  | .obj kvs => kvs.foldl (fun acc kv => if kv.1 = key then some kv.2 else acc) none
  | _ => none

mutual
/-- JavaScript `String(x)` on a JSON value. -/
def jsonToString : Json → String
  | .null => "null"
  | .bool true => "true"
  | .bool false => "false"
  | .num n => toString n
  | .str s => s
  | .arr l => jsonArrayToString l
  | .obj _ => "[object Object]"
/-- `Array.prototype.toString` = `join(",")`. -/
def jsonArrayToString : List Json → String
  | [] => ""
  | [x] => jsonElemToString x
  | x :: xs => jsonElemToString x ++ "," ++ jsonArrayToString xs
/-- An element of a joined array: `null` renders empty, anything else by
`String(x)`. -/
def jsonElemToString : Json → String
  | .null => ""
  | .bool true => "true"
  | .bool false => "false"
  | .num n => toString n
  | .str s => s
  | .arr l => jsonArrayToString l
  | .obj _ => "[object Object]"
end

/-- JavaScript `String(x)` where `x` may be `undefined` (`none`). -/
def jsToString : Option Json → String
  | none => "undefined"
  | some j => jsonToString j

/-- The canonical `UserOpV06` record (`App.tsx` 22–34).  The `sender` field
is stored exactly as found in the input — the code performs a TypeScript
cast `parsed.sender as Address` with no runtime validation, so any JSON
value (including a missing one) is carried through. -/
structure UserOpV06 where
  sender : Option Json
  nonce : Int
  initCode : String
  callData : String
  callGasLimit : Int
  verificationGasLimit : Int
  preVerificationGas : Int
  maxFeePerGas : Int
  maxPriorityFeePerGas : Int
  paymasterAndData : String
  signature : String

/-- `parseHexValue(x)` applied to an arbitrary JSON field: JavaScript throws
a `TypeError` (`.trim` is not a function) on every non-string value, in
particular on a missing field. -/
def parseHexValueJs (v : Option Json) : Except String String :=
  match v with
  | some (.str s) => parseHexValue s
  | _ => Except.error "TypeError"

/-- The field-extraction body of `parseUserOpFromRaw` (`App.tsx` 181–193):
every field of the parsed JSON value is parsed inside one `try`/`catch`, so
any single failure yields `none`.  The `sender` field is read but never
validated (`parsed.sender as Address` is a compile-time cast). -/
def parseUserOpBody (j : Json) : Option UserOpV06 := do
    let nonce ← parseValue (jsToString (jsGetField j "nonce"))
    let initCode ← (parseHexValueJs (jsGetField j "initCode")).toOption
    let callData ← (parseHexValueJs (jsGetField j "callData")).toOption
    let callGasLimit ← parseValue (jsToString (jsGetField j "callGasLimit"))
    let verificationGasLimit ← parseValue (jsToString (jsGetField j "verificationGasLimit"))
    let preVerificationGas ← parseValue (jsToString (jsGetField j "preVerificationGas"))
    let maxFeePerGas ← parseValue (jsToString (jsGetField j "maxFeePerGas"))
    let maxPriorityFeePerGas ← parseValue (jsToString (jsGetField j "maxPriorityFeePerGas"))
    let paymasterAndData ← (parseHexValueJs (jsGetField j "paymasterAndData")).toOption
    let signature ← (parseHexValueJs (jsGetField j "signature")).toOption
    some { sender := jsGetField j "sender", nonce, initCode, callData,
           callGasLimit, verificationGasLimit, preVerificationGas,
           maxFeePerGas, maxPriorityFeePerGas, paymasterAndData, signature }

/-- `parseUserOpFromRaw` (`App.tsx` 178–197).  The input is the result of
`JSON.parse` (`none` models a JSON syntax error, which throws before any
field is read); property access on a top-level `null` throws and is caught,
yielding `none`; otherwise the fields are extracted by `parseUserOpBody`. -/
def parseUserOpFromRaw (input : Option Json) : Option UserOpV06 :=
  match input with
  | none => none
  | some .null => none
  | some j => parseUserOpBody j

/-- The eleven text inputs of fields mode. -/
structure FieldInputs where
  sender : String
  nonce : String
  initCode : String
  callData : String
  callGasLimit : String
  verificationGasLimit : String
  preVerificationGas : String
  maxFeePerGas : String
  maxPriorityFeePerGas : String
  paymasterAndData : String
  signature : String

/-- The fields-mode branch of the `parsedUserOp` memo (`App.tsx` 263–279):
each field is parsed independently inside one `try`/`catch`; the `sender`
string is cast, not validated. -/
def parsedUserOpFromFields (f : FieldInputs) : Option UserOpV06 := do
  let nonce ← parseValue f.nonce
  let initCode ← (parseHexValue f.initCode).toOption
  let callData ← (parseHexValue f.callData).toOption
  let callGasLimit ← parseValue f.callGasLimit
  let verificationGasLimit ← parseValue f.verificationGasLimit
  let preVerificationGas ← parseValue f.preVerificationGas
  let maxFeePerGas ← parseValue f.maxFeePerGas
  let maxPriorityFeePerGas ← parseValue f.maxPriorityFeePerGas
  let paymasterAndData ← (parseHexValue f.paymasterAndData).toOption
  let signature ← (parseHexValue f.signature).toOption
  some { sender := some (.str f.sender), nonce, initCode, callData,
         callGasLimit, verificationGasLimit, preVerificationGas,
         maxFeePerGas, maxPriorityFeePerGas, paymasterAndData, signature }

example :
    (parseUserOpFromRaw (some (.obj [("sender", .str "0xabc"), ("nonce", .str "1"),
      ("initCode", .str "0x"), ("callData", .str "0x"), ("callGasLimit", .str "1"),
      ("verificationGasLimit", .str "1"), ("preVerificationGas", .str "1"),
      ("maxFeePerGas", .str "1"), ("maxPriorityFeePerGas", .str "1"),
      ("paymasterAndData", .str "0x"), ("signature", .str "0x")]))).isSome = true := rfl

example :
    parseUserOpFromRaw (some (.obj [("sender", .str "0xabc"), ("nonce", .str "not-a-number"),
      ("initCode", .str "0x"), ("callData", .str "0x"), ("callGasLimit", .str "1"),
      ("verificationGasLimit", .str "1"), ("preVerificationGas", .str "1"),
      ("maxFeePerGas", .str "1"), ("maxPriorityFeePerGas", .str "1"),
      ("paymasterAndData", .str "0x"), ("signature", .str "0x")])) = none := rfl

example : parseUserOpFromRaw (some (.num 5)) = none := rfl
example : parseUserOpFromRaw none = none := rfl

/-! ## ABI model and the call-data decode pipeline (`App.tsx` 308–418) -/

/-- An ABI parameter type descriptor (viem `AbiParameter`): a type string, an
optional name, and optional tuple components. -/
structure AbiParam where
  type : String
  name : Option String
  components : Option (List AbiParam)

/-- An ABI item as inspected by the code: its `type`, `name` and declared
`inputs`. -/
structure AbiItem where
  type : String
  name : String
  inputs : List AbiParam

/-- A resolved interface description (viem `Abi`), in declaration order. -/
abbrev Abi := List AbiItem

/-- A decoded argument value, as returned by `decodeFunctionData` and walked
by `enrichArgs`: a primitive (bigint/string/number, opaque here), an array,
or an object.  An object carries the four duck-typed fields the code probes
(`target`, `to`, `callData`, `data`, each possibly absent), a possible
`decodedCall` annotation (function name, decoded args — possibly `undefined`
— and the looked-up input types), and its remaining opaque fields. -/
inductive ArgNode where
  | prim : String → ArgNode
  | arr : List ArgNode → ArgNode
  | obj : (target toAddr callData data : Option String) →
      (decodedCall : Option (String × Option (List ArgNode) × Option (List AbiParam))) →
      (rest : List (String × String)) → ArgNode

/-- A `decodedCall` annotation: function name, decoded arguments (possibly
`undefined`, as `decodeFunctionData` returns for zero-argument calls) and
the input type descriptors found in the interface. -/
abbrev DecodedCallAnno := String × Option (List ArgNode) × Option (List AbiParam)

/-- The interface resolver collaborator (`whatsabi.autoload`): may throw
(`.error`), or produce a result whose `abi` may be unusable (`none`). -/
abbrev Resolver := String → Except Unit (Option Abi)

/-- The ABI decoder collaborator (`decodeFunctionData`): may throw, or
produce a function name and its decoded arguments (possibly `undefined`). -/
abbrev AbiDecoder := Abi → String → Except Unit (String × Option (List ArgNode))

/-- The top-level function lookup (`App.tsx` 343–347): first item of the
resolved ABI with `type === "function"` and the decoded function name. -/
def abiFunctionLookup (abi : Abi) (functionName : String) : Option AbiItem :=
  abi.find? (fun item => item.type == "function" && item.name == functionName)

/-- The nested-call function lookup (`App.tsx` 378–382), textually the same
search performed on the freshly resolved inner ABI. -/
def innerAbiFunctionLookup (abi : Abi) (functionName : String) : Option AbiItem :=
  abi.find? (fun item => item.type == "function" && item.name == functionName)

/-- JavaScript `a || b` on two possibly-absent strings (the empty string is
falsy). -/
def jsOr (a b : Option String) : Option String :=
  match a with
  | some s => if s = "" then b else some s
  | none => b

mutual
/-- One step of `enrichArgs` (`App.tsx` 354–397) on a single argument:
arrays recurse; an object exposing a truthy `target`/`to` and a truthy
well-formed hex `callData`/`data` other than `"0x"` gets one decode attempt
against a freshly resolved interface, the result (when everything succeeds)
being attached as its `decodedCall` while all original fields are kept; any
failure (resolver throw, unusable ABI, decoder throw) leaves the node
unchanged.  The attached inner arguments are exactly what the decoder
returned — they are not walked further. -/
def enrichArg (resolver : Resolver) (decoder : AbiDecoder) : ArgNode → ArgNode
  | .prim s => .prim s
  | .arr l => .arr (enrichArgs resolver decoder l)
  | .obj target toAddr callData data decodedCall rest =>
    match jsOr target toAddr, jsOr callData data with
    | some t, some d =>
      if t ≠ "" ∧ d ≠ "" ∧ isHex d = true ∧ d ≠ "0x" then
        match resolver t with
        | .ok (some abi) =>
          match decoder abi d with
          | .ok (functionName, innerArgs) =>
            .obj target toAddr callData data
              (some (functionName, innerArgs,
                (innerAbiFunctionLookup abi functionName).map AbiItem.inputs))
              rest
          | .error _ => .obj target toAddr callData data decodedCall rest
        | .ok none => .obj target toAddr callData data decodedCall rest
        | .error _ => .obj target toAddr callData data decodedCall rest
      else .obj target toAddr callData data decodedCall rest
    | _, _ => .obj target toAddr callData data decodedCall rest
/-- `enrichArgs` over a sibling list: `Promise.all` collects the results
positionally, i.e. a structural map. -/
def enrichArgs (resolver : Resolver) (decoder : AbiDecoder) : List ArgNode → List ArgNode
  | [] => []
  | a :: as => enrichArg resolver decoder a :: enrichArgs resolver decoder as
end

/-- The `decodeCallData` query (`App.tsx` 315–411): guard on a truthy sender
and callData other than `"0x"`; resolve the sender's interface; decode the
callData against it; look up the matched function's input types; enrich the
decoded arguments (when present).  Any uncaught failure (top-level resolver
or decoder throw, unusable ABI) yields `none`. -/
def decodeCallData (resolver : Resolver) (decoder : AbiDecoder)
    (sender : Option String) (callData : Option String) :
    Option (String × Option (List ArgNode) × Option (List AbiParam)) :=
  match sender, callData with
  | some s, some cd =>
    if s = "" ∨ cd = "" ∨ cd = "0x" then none
    else
      match resolver s with
      | .error _ => none
      | .ok none => none
      | .ok (some abi) =>
        match decoder abi cd with
        | .error _ => none
        | .ok (functionName, args) =>
          let inputs := (abiFunctionLookup abi functionName).map AbiItem.inputs
          match args with
          | some as => some (functionName, some (enrichArgs resolver decoder as), inputs)
          | none => some (functionName, none, inputs)
  | _, _ => none

/-! ## Type-descriptor rendering (`App.tsx` 57–71) -/

/-- `c.name || ""`: an absent or empty name renders empty. -/
def jsNameOr (c : AbiParam) : String :=
  match c.name with
  | some s => s
  | none => ""

mutual
/-- `formatAbiType` (`App.tsx` 57–71): a `tuple` with components renders as
the parenthesized comma-joined component list, a `tuple[]` with components
as the same list suffixed with `[]`, and anything else as the bare type
string. -/
def formatAbiType : AbiParam → String
  | .mk t _ comps =>
    if t = "tuple" then
      match comps with
      | some cs => "(" ++ formatComponents cs ++ ")"
      | none => t
    else if t = "tuple[]" then
      match comps with
      | some cs => "(" ++ formatComponents cs ++ ")[]"
      | none => t
    else t
/-- `components.map(c => `${formatAbiType(c)} ${c.name || ""}`.trim()).join(", ")`. -/
def formatComponents : List AbiParam → String
  | [] => ""
  | [c] => jsTrim (formatAbiType c ++ " " ++ jsNameOr c)
  | c :: cs => jsTrim (formatAbiType c ++ " " ++ jsNameOr c) ++ ", " ++ formatComponents cs
end

example :
    formatAbiType (.mk "tuple" none (some [.mk "uint256" (some "a") none,
      .mk "address" (some "b") none])) = "(uint256 a, address b)" := rfl
example :
    formatAbiType (.mk "tuple[]" none (some [.mk "uint256" (some "a") none,
      .mk "address" (some "b") none])) = "(uint256 a, address b)[]" := rfl
example : formatAbiType (.mk "uint256" (some "a") none) = "uint256" := rfl
example :
    formatAbiType (.mk "tuple" none (some [.mk "uint256" none none])) = "(uint256)" := rfl

/-! ## Hash comparison (`App.tsx` 489–494) -/

/-- ASCII lower-casing of one character, as `String.prototype.toLowerCase`
acts on the hash strings at hand. -/
def jsLowerChar : Char → Char
  | 'A' => 'a' | 'B' => 'b' | 'C' => 'c' | 'D' => 'd' | 'E' => 'e' | 'F' => 'f'
  | 'G' => 'g' | 'H' => 'h' | 'I' => 'i' | 'J' => 'j' | 'K' => 'k' | 'L' => 'l'
  | 'M' => 'm' | 'N' => 'n' | 'O' => 'o' | 'P' => 'p' | 'Q' => 'q' | 'R' => 'r'
  | 'S' => 's' | 'T' => 't' | 'U' => 'u' | 'V' => 'v' | 'W' => 'w' | 'X' => 'x'
  | 'Y' => 'y' | 'Z' => 'z'
  | c => c

/-- `s.toLowerCase()`. -/
def jsToLowerCase (s : String) : String :=
  ⟨s.data.map jsLowerChar⟩

/-- The `hashesMatch` chain (`App.tsx` 489–494):
`expectedHash.trim().toLowerCase() && computedHash?.toLowerCase() && (their equality)`.
`none` models the falsy short-circuits (empty normalized expected hash, or
no computed hash), in which case no boolean verdict is produced and the
comparison section is not rendered. -/
def hashesMatch (expectedHash : String) (computedHash : Option String) : Option Bool :=
  let normalizedExpectedHash := jsToLowerCase (jsTrim expectedHash)
  if normalizedExpectedHash.data = [] then none
  else
    match computedHash with
    | none => none
    | some c => some (normalizedExpectedHash = jsToLowerCase c)

example : hashesMatch " 0xAB " (some "0xab") = some true := rfl
example : hashesMatch "0xab" (some "0xAB") = some true := rfl
example : hashesMatch "0xab" (some "0xac") = some false := rfl
example : hashesMatch "  " (some "0xab") = none := rfl
example : hashesMatch "0xab" none = none := rfl

/-! ## Specification-side definitions

These definitions follow the wording of the specification (not the source)
and are used to compare the code's behaviour against the spec's claims. -/

/-- Specification-side value of a digit string, most-significant digit
first: `d₀·baseⁿ⁻¹ + … + dₙ₋₁` (`none` on an empty string or a non-digit). -/
def positionalValue (base : Nat) : List Char → Option Nat
  | [] => none
  | [c] => digitValue base c
  | c :: cs =>
    match digitValue base c, positionalValue base cs with
    | some d, some v => some (d * base ^ cs.length + v)
    | _, _ => none

/-- Specification-side "parse as a decimal integer": an optional sign
followed by decimal digits. -/
def decimalIntClaim : List Char → Option Int
  | '-' :: rest => (positionalValue 10 rest).map (fun n => -(n : Int))
  | '+' :: rest => (positionalValue 10 rest).map Int.ofNat
  | l => (positionalValue 10 l).map Int.ofNat

/-- The integer-parsing rule exactly as claim C4 states it: trim; empty is
zero; a `0x`-prefixed hex literal is interpreted as hex; a trailing `n` is
stripped and the remainder parsed as a *decimal* integer; otherwise the
string is parsed as a *decimal* integer. -/
def parseValueClaimC4 (s : String) : Option Int :=
  match jsTrimList s.data with
  | [] => some 0
  | t =>
    match t with
    | '0' :: 'x' :: ds =>
      if ds ≠ [] ∧ ds.all isHexDigitChar = true then (positionalValue 16 ds).map Int.ofNat
      else if t.getLast? = some 'n' then decimalIntClaim t.dropLast
      else decimalIntClaim t
    | _ =>
      if t.getLast? = some 'n' then decimalIntClaim t.dropLast
      else decimalIntClaim t

/-- Specification-side well-formedness of a `0x`-prefixed hex string: the
`0x` prefix followed by hex digits (any number of them). -/
def IsWellFormedHexLiteral (t : String) : Prop :=
  ∃ ds : List Char, t.data = '0' :: 'x' :: ds ∧
    ∀ c ∈ ds, ('0' ≤ c ∧ c ≤ '9') ∨ ('a' ≤ c ∧ c ≤ 'f') ∨ ('A' ≤ c ∧ c ≤ 'F')

/-- Two characters that are equal or differ only in the case of a hex
letter `a`–`f`. -/
def hexCaseVariantChar (a b : Char) : Bool :=
  a == b ||
    (a == 'a' && b == 'A') || (a == 'A' && b == 'a') ||
    (a == 'b' && b == 'B') || (a == 'B' && b == 'b') ||
    (a == 'c' && b == 'C') || (a == 'C' && b == 'c') ||
    (a == 'd' && b == 'D') || (a == 'D' && b == 'd') ||
    (a == 'e' && b == 'E') || (a == 'E' && b == 'e') ||
    (a == 'f' && b == 'F') || (a == 'F' && b == 'f')

/-- Pointwise hex-case variance of two character lists. -/
def hexCaseVariantL : List Char → List Char → Bool
  | [], [] => true
  | a :: as, b :: bs => hexCaseVariantChar a b && hexCaseVariantL as bs
  | _, _ => false

/-- `t` is `s` rewritten with different hex-letter case. -/
def hexCaseVariant (s t : String) : Bool :=
  hexCaseVariantL s.data t.data

/-- Hex-case variance of two possibly-absent strings (both absent, or both
present and variant). -/
def optHexCaseVariant : Option String → Option String → Bool
  | none, none => true
  | some a, some b => hexCaseVariant a b
  | _, _ => false

/-- A character list with no leading and no trailing JS whitespace. -/
def noEdgeWs (l : List Char) : Bool :=
  (l.head?.all fun c => !isJsWhitespace c) && (l.getLast?.all fun c => !isJsWhitespace c)

/-! ## Concrete fixtures used by counterexamples and witnesses -/

/-- A raw-mode input whose `sender` is the malformed address `"0xabc"`
(not 20 bytes) while every other field is well-formed. -/
def cexSenderJson : Json :=
  .obj [("sender", .str "0xabc"), ("nonce", .str "1"),
    ("initCode", .str "0x"), ("callData", .str "0x"), ("callGasLimit", .str "1"),
    ("verificationGasLimit", .str "1"), ("preVerificationGas", .str "1"),
    ("maxFeePerGas", .str "1"), ("maxPriorityFeePerGas", .str "1"),
    ("paymasterAndData", .str "0x"), ("signature", .str "0x")]

/-- Fields-mode inputs with a negative `nonce` (`"-5"`) and a
`callGasLimit` of `2^256` (79 decimal digits), both accepted by the code. -/
def cexFields : FieldInputs :=
  ⟨"0x1111111111111111111111111111111111111111", "-5", "0x", "0x",
   "115792089237316195423570985008687907853269984665640564039457584007913129639936",
   "1", "1", "1", "1", "0x", "0x"⟩

/-- ABI of the outer contract `"0xa"`: one function `outer`. -/
def cexAbiOuter : Abi := [⟨"function", "outer", []⟩]

/-- ABI of the inner contract `"0xb"`: one function `inner`. -/
def cexAbiInner : Abi := [⟨"function", "inner", []⟩]

/-- A resolver that knows the two contracts `"0xa"` and `"0xb"`. -/
def cexResolver : Resolver := fun a =>
  if a = "0xa" then .ok (some cexAbiOuter)
  else if a = "0xb" then .ok (some cexAbiInner)
  else .ok none

/-- A decoder under which `"0x01"` decodes to a call whose argument points
at (`"0xb"`, `"0x02"`), `"0x02"` decodes to a call whose argument points at
(`"0xa"`, `"0x03"`), and `"0x03"` decodes successfully as well — a
three-level chain of decodable calls. -/
def cexDecoder : AbiDecoder := fun _ dstr =>
  if dstr = "0x01" then .ok ("outer", some [.obj (some "0xb") none (some "0x02") none none []])
  else if dstr = "0x02" then .ok ("inner", some [.obj (some "0xa") none (some "0x03") none none []])
  else if dstr = "0x03" then .ok ("deep", some [])
  else .error ()

/-- A resolver that throws for the nested target `"0xb"` but resolves the
top-level sender `"0xa"`. -/
def gfResolver : Resolver := fun a =>
  if a = "0xa" then .ok (some cexAbiOuter) else .error ()

/-- A decoder for the graceful-degradation scenario: the outer call has
three sibling arguments, of which only the second looks like a nested
call. -/
def gfDecoder : AbiDecoder := fun _ dstr =>
  if dstr = "0x01" then
    .ok ("outer", some [.prim "7", .obj (some "0xb") none (some "0x02") none none [],
      .prim "8"])
  else .error ()

/-- Fields-mode inputs whose ten parsed fields are all well-formed while the
`sender` text is the malformed address `"0xabc"`. -/
def goodFields : FieldInputs :=
  ⟨"0xabc", "1", "0x", "0x", "2", "3", "4", "5", "6", "0x", "0x"⟩

/-- The record produced by the code for `goodFields`. -/
def goodFieldsRecord : UserOpV06 :=
  ⟨some (.str "0xabc"), 1, "0x", "0x", 2, 3, 4, 5, 6, "0x", "0x"⟩

/-- The record produced by the code for `cexSenderJson`. -/
def cexSenderRecord : UserOpV06 :=
  ⟨some (.str "0xabc"), 1, "0x", "0x", 1, 1, 1, 1, 1, "0x", "0x"⟩

/-! ## Helper lemmas -/

theorem find?_eq_filter_head {α : Type} (p : α → Bool) (l : List α) :
    l.find? p = (l.filter p).head? := by
  induction l with
  | nil => rfl
  | cons a as ih =>
    cases h : p a with
    | true => simp [List.find?_cons, List.filter_cons, h]
    | false => simp only [List.find?_cons, List.filter_cons, h]; exact ih

/-! ## Claim C8: function lookup is first-match-by-name in declaration order -/

/-- **C8** (confirmed).  Both the top-level lookup (`App.tsx` 343–347) and
the nested-call lookup (`App.tsx` 378–382) select, by exact function-name
match, the first item of the resolved interface (in declaration order) that
is a function with the decoded name: each equals the head of the filtered
declaration list, so when several functions share the name the first one
declared wins. -/
theorem abiFunctionLookup_first_match (abi : Abi) (functionName : String) :
    abiFunctionLookup abi functionName =
      (abi.filter (fun item => item.type == "function" && item.name == functionName)).head? ∧
    innerAbiFunctionLookup abi functionName =
      (abi.filter (fun item => item.type == "function" && item.name == functionName)).head? :=
  ⟨find?_eq_filter_head _ _, find?_eq_filter_head _ _⟩

/-! ## Claim C6: enrichment preserves argument arity and order -/

/-- **C6** (confirmed).  Enrichment collects results positionally: the
enriched sibling list has the same length as the original, position `i`
holds exactly the enrichment of original argument `i`, a primitive argument
is returned unchanged, and an object argument keeps all its original fields
(at most its `decodedCall` annotation differs).  `Promise.all` keeps the
positional order regardless of the completion order of the concurrent
lookups, which the embedding reflects as a structural map. -/
theorem enrichArgs_preserves_arity_order (resolver : Resolver) (decoder : AbiDecoder)
    (args : List ArgNode) :
    (enrichArgs resolver decoder args).length = args.length ∧
    (∀ i : Nat, (enrichArgs resolver decoder args)[i]? =
      (args[i]?).map (enrichArg resolver decoder)) ∧
    (∀ s, enrichArg resolver decoder (.prim s) = .prim s) ∧
    (∀ target toAddr callData data decodedCall rest, ∃ anno,
        enrichArg resolver decoder (.obj target toAddr callData data decodedCall rest) =
          .obj target toAddr callData data anno rest) := by
  refine ⟨?_, ?_, fun s => rfl, ?_⟩
  · induction args with
    | nil => rfl
    | cons a as ih => simp [enrichArgs, ih]
  · intro i
    induction args generalizing i with
    | nil => simp [enrichArgs]
    | cons a as ih =>
      cases i with
      | zero => simp [enrichArgs]
      | succ n => simpa [enrichArgs] using ih n
  · intro t ta cd d dec rest
    unfold enrichArg
    repeat' split
    all_goals exact ⟨_, rfl⟩

/-! ## Claim C2: byte-string field parsing -/

theorem isHex_iff_wellformed (t : String) : isHex t = true ↔ IsWellFormedHexLiteral t := by
  unfold isHex IsWellFormedHexLiteral
  split
  · next rest heq =>
    constructor
    · intro h
      refine ⟨rest, heq, fun c hc => ?_⟩
      have hc2 := List.all_eq_true.mp h c hc
      simp only [isHexDigitChar, Bool.or_eq_true, Bool.and_eq_true, decide_eq_true_eq] at hc2
      tauto
    · rintro ⟨ds, hds, h⟩
      have hre : rest = ds := by
        have h2 := heq.symm.trans hds
        simpa using h2
      subst hre
      refine List.all_eq_true.mpr fun c hc => ?_
      have hc2 := h c hc
      simp only [isHexDigitChar, Bool.or_eq_true, Bool.and_eq_true, decide_eq_true_eq]
      tauto
  · next hshape =>
    constructor
    · intro h
      exact absurd h (by simp)
    · rintro ⟨ds, hds, -⟩
      exact (hshape ds hds).elim

/-- **C2** (corrected).  Byte-string parsing after trimming: the empty
string and `"0x"` normalize to the empty marker; any other value is
accepted (and returned trimmed) exactly when it is a `0x`-prefixed string
of hex digits — the code imposes **no even-length requirement** — and
otherwise fails with an error naming the raw input. -/
theorem parseHexValue_characterization (value : String) :
    ((jsTrim value).data = [] ∨ jsTrim value = "0x" →
      parseHexValue value = Except.ok "0x") ∧
    ((jsTrim value).data ≠ [] → jsTrim value ≠ "0x" →
      ((parseHexValue value = Except.ok (jsTrim value) ↔
          IsWellFormedHexLiteral (jsTrim value)) ∧
       (¬ IsWellFormedHexLiteral (jsTrim value) →
          parseHexValue value = Except.error ("Invalid hex value: " ++ value)))) := by
  constructor
  · intro h
    simp only [parseHexValue]
    rw [if_pos h]
  · intro h1 h2
    have hcond : ¬ ((jsTrim value).data = [] ∨ jsTrim value = "0x") := by
      rintro (h | h)
      · exact h1 h
      · exact h2 h
    constructor
    · constructor
      · intro hok
        by_cases hh : isHex (jsTrim value) = true
        · exact (isHex_iff_wellformed _).mp hh
        · exfalso
          simp only [parseHexValue] at hok
          rw [if_neg hcond, if_neg hh] at hok
          exact Except.noConfusion hok
      · intro hwf
        simp only [parseHexValue]
        rw [if_neg hcond, if_pos ((isHex_iff_wellformed _).mpr hwf)]
    · intro hnwf
      have hh : ¬ isHex (jsTrim value) = true :=
        fun hh => hnwf ((isHex_iff_wellformed _).mp hh)
      simp only [parseHexValue]
      rw [if_neg hcond, if_neg hh]

/-- **C2 counterexample.**  The odd-length hex string `"0x123"` is accepted
by `parseHexValue` (viem's `isHex` checks no length parity), contradicting
the claim that it fails with an "invalid hex value" error. -/
theorem parseHexValue_accepts_odd_length :
    parseHexValue "0x123" = Except.ok "0x123" ∧ "0x123".data.length % 2 = 1 :=
  ⟨rfl, rfl⟩

/-- Witness for `parseHexValue_characterization` at the concrete inputs
`"0x123"` and `""`. -/
theorem parseHexValue_characterization_w :
    ((parseHexValue "0x123" = Except.ok (jsTrim "0x123") ↔
        IsWellFormedHexLiteral (jsTrim "0x123")) ∧
     (¬ IsWellFormedHexLiteral (jsTrim "0x123") →
        parseHexValue "0x123" = Except.error ("Invalid hex value: " ++ "0x123"))) ∧
    parseHexValue "" = Except.ok "0x" :=
  ⟨(parseHexValue_characterization "0x123").2 (by decide) (by decide),
   (parseHexValue_characterization "").1 (Or.inl (by decide))⟩

/-! ## Claim C4: integer field parsing -/

theorem parseDigitsAux_eq_positional (base : Nat) :
    ∀ (l : List Char), l ≠ [] → ∀ acc : Nat,
      parseDigitsAux base l acc =
        (positionalValue base l).map (fun v => acc * base ^ l.length + v) := by
  intro l
  induction l with
  | nil => intro h; exact absurd rfl h
  | cons c cs ih =>
    intro _ acc
    cases cs with
    | nil =>
      simp only [parseDigitsAux, positionalValue]
      cases hd : digitValue base c with
      | none => rfl
      | some d => simp [parseDigitsAux, pow_one]
    | cons c2 cs2 =>
      cases hd : digitValue base c with
      | none =>
        have stepL : parseDigitsAux base (c :: c2 :: cs2) acc = none := by
          show (match digitValue base c with
                | some d => parseDigitsAux base (c2 :: cs2) (acc * base + d)
                | none => none) = none
          rw [hd]
        rw [stepL]
        simp [positionalValue, hd]
      | some d =>
        have stepL : parseDigitsAux base (c :: c2 :: cs2) acc =
            parseDigitsAux base (c2 :: cs2) (acc * base + d) := by
          show (match digitValue base c with
                | some d => parseDigitsAux base (c2 :: cs2) (acc * base + d)
                | none => none) = _
          rw [hd]
        rw [stepL, ih (by simp) (acc * base + d)]
        simp only [positionalValue, hd]
        cases hv : positionalValue base (c2 :: cs2) with
        | none => rfl
        | some v =>
          simp only [Option.map_some', List.length_cons]
          congr 1
          ring

theorem parseDigits_eq_positional (base : Nat) (l : List Char) :
    parseDigits base l = positionalValue base l := by
  cases l with
  | nil => rfl
  | cons c cs =>
    unfold parseDigits
    rw [parseDigitsAux_eq_positional base (c :: cs) (by simp) 0]
    cases positionalValue base (c :: cs) <;> simp

/-- **C4** (corrected).  `parseValue` follows the trim/empty/hex/`n`-suffix
branch rule, but every conversion goes through JavaScript `BigInt(string)`
semantics rather than a decimal-only rule: the `n`-stripped remainder and
the fall-through case accept any `BigInt` numeric string (optionally signed
decimal, or `0x`/`0X`, `0o`/`0O`, `0b`/`0B` prefixed).  The digit strings
accepted by `BigInt` take their positional (most-significant-first)
values, and the claim's four examples hold. -/
theorem parseValue_follows_bigint_rule :
    (∀ s : String, (jsTrim s).data = [] → parseValue s = some 0) ∧
    (∀ s : String, (jsTrim s).data ≠ [] → isHex (jsTrim s) = true →
        parseValue s = stringToBigInt (jsTrim s)) ∧
    (∀ s : String, (jsTrim s).data ≠ [] → isHex (jsTrim s) = false →
        (jsTrim s).data.getLast? = some 'n' →
        parseValue s = stringToBigInt ⟨(jsTrim s).data.dropLast⟩) ∧
    (∀ s : String, (jsTrim s).data ≠ [] → isHex (jsTrim s) = false →
        (jsTrim s).data.getLast? ≠ some 'n' →
        parseValue s = stringToBigInt (jsTrim s)) ∧
    (∀ (base : Nat) (l : List Char), parseDigits base l = positionalValue base l) ∧
    (parseValue "0x10" = some 16 ∧ parseValue "10" = some 10 ∧
     parseValue "10n" = some 10 ∧ parseValue "" = some 0 ∧
     parseValue "0x10n" = some 16 ∧ parseValue "0b101" = some 5) := by
  refine ⟨?_, ?_, ?_, ?_, parseDigits_eq_positional,
    rfl, rfl, rfl, rfl, rfl, rfl⟩
  · intro s h
    simp only [parseValue]
    rw [if_pos h]
  · intro s h1 h2
    simp only [parseValue]
    rw [if_neg h1, if_pos h2]
  · intro s h1 h2 h3
    simp only [parseValue]
    rw [if_neg h1, if_neg (by simp [h2]), if_pos h3]
  · intro s h1 h2 h3
    simp only [parseValue]
    rw [if_neg h1, if_neg (by simp [h2]), if_neg h3]

/-- **C4 counterexample.**  Under the claim's rule the `n`-stripped
remainder `"0x10"` and the string `"0b101"` are not decimal integers, so
`"0x10n"` and `"0b101"` should fail; the code converts them with `BigInt`,
yielding 16 and 5. -/
theorem parseValue_deviates_from_decimal_rule :
    parseValue "0x10n" = some 16 ∧ parseValueClaimC4 "0x10n" = none ∧
    parseValue "0b101" = some 5 ∧ parseValueClaimC4 "0b101" = none :=
  ⟨rfl, rfl, rfl, rfl⟩

/-- Witness for `parseValue_follows_bigint_rule` at concrete inputs for the
hex branch, the `n`-suffix branch and the fall-through branch. -/
theorem parseValue_follows_bigint_rule_w :
    parseValue " " = some 0 ∧
    parseValue "0x1A" = stringToBigInt (jsTrim "0x1A") ∧
    parseValue "12n" = stringToBigInt ⟨(jsTrim "12n").data.dropLast⟩ ∧
    parseValue "12" = stringToBigInt (jsTrim "12") :=
  ⟨parseValue_follows_bigint_rule.1 " " (by decide),
   parseValue_follows_bigint_rule.2.1 "0x1A" (by decide) (by decide),
   parseValue_follows_bigint_rule.2.2.1 "12n" (by decide) (by decide) (by decide),
   parseValue_follows_bigint_rule.2.2.2.1 "12" (by decide) (by decide) (by decide)⟩

/-! ## Claim C3: range of the integer fields -/

theorem mem_of_mem_jsTrimList {c : Char} {l : List Char} (h : c ∈ jsTrimList l) : c ∈ l := by
  unfold jsTrimList at h
  rw [List.mem_reverse] at h
  have h2 := List.Sublist.mem h (List.dropWhile_sublist _)
  rw [List.mem_reverse] at h2
  exact List.Sublist.mem h2 (List.dropWhile_sublist _)

theorem strToIntL_nonneg {l : List Char} {v : Int}
    (h : strToIntL l = some v) (hm : '-' ∉ l) : 0 ≤ v := by
  unfold strToIntL at h
  split at h
  · cases h; exact le_refl 0
  all_goals
    first
      | (rcases Option.map_eq_some'.mp h with ⟨n, -, rfl⟩; exact Int.ofNat_nonneg n)
      | (exact absurd (List.mem_cons_self _ _) hm)

theorem parseValue_nonneg {s : String} {v : Int}
    (h : parseValue s = some v) (hm : '-' ∉ s.data) : 0 ≤ v := by
  have hmt : '-' ∉ jsTrimList s.data := fun hc => hm (mem_of_mem_jsTrimList hc)
  simp only [parseValue] at h
  split at h
  · cases h; exact le_refl 0
  · split at h
    · exact strToIntL_nonneg h fun hc => hmt (mem_of_mem_jsTrimList hc)
    · split at h
      · refine strToIntL_nonneg h fun hc => hmt ?_
        exact List.Sublist.mem (mem_of_mem_jsTrimList hc) (List.dropLast_sublist _)
      · exact strToIntL_nonneg h fun hc => hmt (mem_of_mem_jsTrimList hc)

/-- **C3** (corrected).  The code never checks sign or width: an integer
field is non-negative whenever its raw input contains no minus sign (hex,
binary, octal and unsigned decimal inputs), but a decimal input with a
leading minus parses to a negative value and no 256-bit upper bound is
enforced anywhere. -/
theorem integer_fields_sign_characterization :
    (∀ (s : String) (v : Int), parseValue s = some v → '-' ∉ s.data → 0 ≤ v) ∧
    (∀ (f : FieldInputs) (u : UserOpV06), parsedUserOpFromFields f = some u →
      ('-' ∉ f.nonce.data → 0 ≤ u.nonce) ∧
      ('-' ∉ f.callGasLimit.data → 0 ≤ u.callGasLimit) ∧
      ('-' ∉ f.verificationGasLimit.data → 0 ≤ u.verificationGasLimit) ∧
      ('-' ∉ f.preVerificationGas.data → 0 ≤ u.preVerificationGas) ∧
      ('-' ∉ f.maxFeePerGas.data → 0 ≤ u.maxFeePerGas) ∧
      ('-' ∉ f.maxPriorityFeePerGas.data → 0 ≤ u.maxPriorityFeePerGas)) := by
  refine ⟨fun s v h hm => parseValue_nonneg h hm, ?_⟩
  intro f u h
  simp only [parsedUserOpFromFields, bind, Option.bind_eq_some, Option.some.injEq] at h
  obtain ⟨n, hn, ic, hic, cd, hcd, cg, hcg, vg, hvg, pv, hpv, mf, hmf, mp, hmp, pd,
    hpd, sg, hsg, hu⟩ := h
  subst hu
  exact ⟨fun hm => parseValue_nonneg hn hm, fun hm => parseValue_nonneg hcg hm,
    fun hm => parseValue_nonneg hvg hm, fun hm => parseValue_nonneg hpv hm,
    fun hm => parseValue_nonneg hmf hm, fun hm => parseValue_nonneg hmp hm⟩

set_option maxRecDepth 8000 in
/-- **C3 counterexample.**  A successfully produced record can violate the
claimed invariant: fields-mode input with nonce `"-5"` and callGasLimit
`2^256` (written in decimal) is accepted, producing a record whose nonce is
negative and whose callGasLimit does not fit in 256 bits. -/
theorem integer_fields_unbounded_cex :
    (parsedUserOpFromFields cexFields).map UserOpV06.nonce = some (-5) ∧
    (parsedUserOpFromFields cexFields).map UserOpV06.callGasLimit = some (2 ^ 256) ∧
    ¬ (2 ^ 256 : Int) < 2 ^ 256 :=
  ⟨by decide, by decide, by decide⟩

/-- Witness for `integer_fields_sign_characterization` at the concrete
fields input `goodFields`. -/
theorem integer_fields_sign_characterization_w :
    0 ≤ goodFieldsRecord.nonce ∧ 0 ≤ goodFieldsRecord.callGasLimit :=
  ⟨((integer_fields_sign_characterization.2 goodFields goodFieldsRecord rfl).1 (by decide)),
   ((integer_fields_sign_characterization.2 goodFields goodFieldsRecord rfl).2.1 (by decide))⟩

/-! ## Claim C1: normalization fails as a unit -/

/-- **C1** (corrected).  Normalization is all-or-nothing over the ten
*parsed* fields in both modes: a JSON syntax error or a top-level `null`
yields failure; otherwise the result is `some` exactly when all ten integer
and byte-string fields parse, and no partial record is ever produced.  The
`sender` field, however, is **not validated**: success never depends on it
(the success conditions below do not mention it) and whatever value —
malformed or absent — sits there is carried into the record unchanged. -/
theorem normalize_fails_as_unit :
    (parseUserOpFromRaw none = none) ∧
    (parseUserOpFromRaw (some Json.null) = none) ∧
    (∀ j : Json, j ≠ Json.null → parseUserOpFromRaw (some j) = parseUserOpBody j) ∧
    (∀ j : Json, (parseUserOpBody j).isSome ↔
      ((parseValue (jsToString (jsGetField j "nonce"))).isSome ∧
       ((parseHexValueJs (jsGetField j "initCode")).toOption).isSome ∧
       ((parseHexValueJs (jsGetField j "callData")).toOption).isSome ∧
       (parseValue (jsToString (jsGetField j "callGasLimit"))).isSome ∧
       (parseValue (jsToString (jsGetField j "verificationGasLimit"))).isSome ∧
       (parseValue (jsToString (jsGetField j "preVerificationGas"))).isSome ∧
       (parseValue (jsToString (jsGetField j "maxFeePerGas"))).isSome ∧
       (parseValue (jsToString (jsGetField j "maxPriorityFeePerGas"))).isSome ∧
       ((parseHexValueJs (jsGetField j "paymasterAndData")).toOption).isSome ∧
       ((parseHexValueJs (jsGetField j "signature")).toOption).isSome)) ∧
    (∀ (j : Json) (u : UserOpV06), parseUserOpBody j = some u →
       u.sender = jsGetField j "sender") ∧
    (∀ f : FieldInputs, (parsedUserOpFromFields f).isSome ↔
      ((parseValue f.nonce).isSome ∧
       ((parseHexValue f.initCode).toOption).isSome ∧
       ((parseHexValue f.callData).toOption).isSome ∧
       (parseValue f.callGasLimit).isSome ∧
       (parseValue f.verificationGasLimit).isSome ∧
       (parseValue f.preVerificationGas).isSome ∧
       (parseValue f.maxFeePerGas).isSome ∧
       (parseValue f.maxPriorityFeePerGas).isSome ∧
       ((parseHexValue f.paymasterAndData).toOption).isSome ∧
       ((parseHexValue f.signature).toOption).isSome)) ∧
    (∀ (f : FieldInputs) (u : UserOpV06), parsedUserOpFromFields f = some u →
       u.sender = some (.str f.sender)) := by
  refine ⟨rfl, rfl, ?_, ?_, ?_, ?_, ?_⟩
  · intro j hj
    cases j with
    | null => exact absurd rfl hj
    | bool b => rfl
    | num n => rfl
    | str s => rfl
    | arr l => rfl
    | obj kvs => rfl
  · intro j
    simp only [parseUserOpBody, bind, Option.isSome_iff_exists, Option.bind_eq_some,
      Option.some.injEq]
    constructor
    · rintro ⟨u, n, hn, ic, hic, cd, hcd, cg, hcg, vg, hvg, pv, hpv, mf, hmf, mp, hmp,
        pd, hpd, sg, hsg, -⟩
      exact ⟨⟨n, hn⟩, ⟨ic, hic⟩, ⟨cd, hcd⟩, ⟨cg, hcg⟩, ⟨vg, hvg⟩, ⟨pv, hpv⟩,
        ⟨mf, hmf⟩, ⟨mp, hmp⟩, ⟨pd, hpd⟩, ⟨sg, hsg⟩⟩
    · rintro ⟨⟨n, hn⟩, ⟨ic, hic⟩, ⟨cd, hcd⟩, ⟨cg, hcg⟩, ⟨vg, hvg⟩, ⟨pv, hpv⟩,
        ⟨mf, hmf⟩, ⟨mp, hmp⟩, ⟨pd, hpd⟩, ⟨sg, hsg⟩⟩
      exact ⟨_, n, hn, ic, hic, cd, hcd, cg, hcg, vg, hvg, pv, hpv, mf, hmf, mp, hmp,
        pd, hpd, sg, hsg, rfl⟩
  · intro j u h
    simp only [parseUserOpBody, bind, Option.bind_eq_some, Option.some.injEq] at h
    obtain ⟨n, hn, ic, hic, cd, hcd, cg, hcg, vg, hvg, pv, hpv, mf, hmf, mp, hmp,
      pd, hpd, sg, hsg, hu⟩ := h
    subst hu
    rfl
  · intro f
    simp only [parsedUserOpFromFields, bind, Option.isSome_iff_exists, Option.bind_eq_some,
      Option.some.injEq]
    constructor
    · rintro ⟨u, n, hn, ic, hic, cd, hcd, cg, hcg, vg, hvg, pv, hpv, mf, hmf, mp, hmp,
        pd, hpd, sg, hsg, -⟩
      exact ⟨⟨n, hn⟩, ⟨ic, hic⟩, ⟨cd, hcd⟩, ⟨cg, hcg⟩, ⟨vg, hvg⟩, ⟨pv, hpv⟩,
        ⟨mf, hmf⟩, ⟨mp, hmp⟩, ⟨pd, hpd⟩, ⟨sg, hsg⟩⟩
    · rintro ⟨⟨n, hn⟩, ⟨ic, hic⟩, ⟨cd, hcd⟩, ⟨cg, hcg⟩, ⟨vg, hvg⟩, ⟨pv, hpv⟩,
        ⟨mf, hmf⟩, ⟨mp, hmp⟩, ⟨pd, hpd⟩, ⟨sg, hsg⟩⟩
      exact ⟨_, n, hn, ic, hic, cd, hcd, cg, hcg, vg, hvg, pv, hpv, mf, hmf, mp, hmp,
        pd, hpd, sg, hsg, rfl⟩
  · intro f u h
    simp only [parsedUserOpFromFields, bind, Option.bind_eq_some, Option.some.injEq] at h
    obtain ⟨n, hn, ic, hic, cd, hcd, cg, hcg, vg, hvg, pv, hpv, mf, hmf, mp, hmp,
      pd, hpd, sg, hsg, hu⟩ := h
    subst hu
    rfl

/-- **C1 counterexample.**  An input whose `sender` is the malformed address
`"0xabc"` (also malformed in fields mode) is *accepted* in both modes; the
malformed sender is carried through instead of causing failure. -/
theorem normalize_accepts_malformed_sender :
    parseUserOpFromRaw (some cexSenderJson) = some cexSenderRecord ∧
    cexSenderRecord.sender = some (.str "0xabc") ∧
    parsedUserOpFromFields goodFields = some goodFieldsRecord ∧
    goodFieldsRecord.sender = some (.str "0xabc") :=
  ⟨rfl, rfl, rfl, rfl⟩

/-- Witness for `normalize_fails_as_unit` at the concrete inputs
`cexSenderJson` and `goodFields`. -/
theorem normalize_fails_as_unit_w :
    (parseUserOpFromRaw (some cexSenderJson) = parseUserOpBody cexSenderJson) ∧
    (cexSenderRecord.sender = jsGetField cexSenderJson "sender") ∧
    (goodFieldsRecord.sender = some (.str goodFields.sender)) :=
  ⟨normalize_fails_as_unit.2.2.1 cexSenderJson (by simp [cexSenderJson]),
   normalize_fails_as_unit.2.2.2.2.1 cexSenderJson cexSenderRecord rfl,
   normalize_fails_as_unit.2.2.2.2.2.2 goodFields goodFieldsRecord rfl⟩

/-! ## Claim C5: depth of the recursive enrichment -/

/-- **C5** (corrected).  Enrichment recurses through arrays (to any array
nesting depth), and an object node exposing a truthy `target`/`to` and a
truthy well-formed hex `callData`/`data` other than `"0x"` receives one
decode attempt against a freshly resolved interface, the successful result
being attached as its `decodedCall`.  The attached inner arguments are the
decoder's output **verbatim** — enrichment does not walk the arguments of
an already-decoded nested call, nor the other fields of an object. -/
theorem enrich_attaches_single_level (resolver : Resolver) (decoder : AbiDecoder) :
    (∀ l, enrichArg resolver decoder (.arr l) = .arr (enrichArgs resolver decoder l)) ∧
    (∀ target toAddr callData data decodedCall rest ts ds abi functionName innerArgs,
      jsOr target toAddr = some ts → jsOr callData data = some ds →
      ts ≠ "" → ds ≠ "" → isHex ds = true → ds ≠ "0x" →
      resolver ts = .ok (some abi) →
      decoder abi ds = .ok (functionName, innerArgs) →
      enrichArg resolver decoder (.obj target toAddr callData data decodedCall rest) =
        .obj target toAddr callData data
          (some (functionName, innerArgs,
            (innerAbiFunctionLookup abi functionName).map AbiItem.inputs)) rest) := by
  refine ⟨fun l => rfl, ?_⟩
  intro target toAddr callData data decodedCall rest ts ds abi functionName innerArgs
  intro h1 h2 h3 h4 h5 h6 h7 h8
  unfold enrichArg
  rw [h1, h2]
  simp only [h7, h8]
  rw [if_pos ⟨h3, h4, h5, h6⟩]

/-- **C5 counterexample.**  A three-level chain of decodable calls: the
top-level decode of (`"0xa"`, `"0x01"`) annotates its argument pointing at
(`"0xb"`, `"0x02"`), but the argument of *that* decoded call — which points
at (`"0xa"`, `"0x03"`) and is itself decodable, as the second conjunct
shows — is left without a `decodedCall` annotation: the recursion does not
continue into the arguments of an already-decoded nested call. -/
theorem enrich_no_deep_recursion :
    decodeCallData cexResolver cexDecoder (some "0xa") (some "0x01") =
      some ("outer", some [.obj (some "0xb") none (some "0x02") none
        (some ("inner", some [.obj (some "0xa") none (some "0x03") none none []],
          some [])) []], some []) ∧
    decodeCallData cexResolver cexDecoder (some "0xa") (some "0x03") =
      some ("deep", some [], none) :=
  ⟨rfl, rfl⟩

/-- Witness for `enrich_attaches_single_level` at the concrete fixtures. -/
theorem enrich_attaches_single_level_w :
    enrichArg cexResolver cexDecoder (.obj (some "0xb") none (some "0x02") none none []) =
      .obj (some "0xb") none (some "0x02") none
        (some ("inner", some [.obj (some "0xa") none (some "0x03") none none []],
          (innerAbiFunctionLookup cexAbiInner "inner").map AbiItem.inputs)) [] :=
  (enrich_attaches_single_level cexResolver cexDecoder).2 (some "0xb") none (some "0x02")
    none none [] "0xb" "0x02" cexAbiInner "inner"
    (some [.obj (some "0xa") none (some "0x03") none none []])
    rfl rfl (by decide) (by decide) (by decide) (by decide) rfl rfl

/-! ## Claim C7: graceful degradation inside the recursion -/

/-- **C7** (confirmed).  When resolution or decoding of a nested candidate
fails (resolver throw, unusable interface, or decoder throw), the node is
returned with all its original fields and without a new `decodedCall`
annotation; and whenever the top-level resolution and decode succeed, the
parent decode returns all sibling arguments enriched as usual — a nested
failure never aborts the tree. -/
theorem enrich_graceful_degradation :
    (∀ (resolver : Resolver) (decoder : AbiDecoder)
        target toAddr callData data decodedCall rest ts ds,
      jsOr target toAddr = some ts → jsOr callData data = some ds →
      (resolver ts = .error () ∨ resolver ts = .ok none ∨
        (∃ abi, resolver ts = .ok (some abi) ∧ decoder abi ds = .error ())) →
      enrichArg resolver decoder (.obj target toAddr callData data decodedCall rest) =
        .obj target toAddr callData data decodedCall rest) ∧
    (∀ (resolver : Resolver) (decoder : AbiDecoder) (s cd : String)
        (abi : Abi) (functionName : String) (args : List ArgNode),
      s ≠ "" → cd ≠ "" → cd ≠ "0x" →
      resolver s = .ok (some abi) →
      decoder abi cd = .ok (functionName, some args) →
      decodeCallData resolver decoder (some s) (some cd) =
        some (functionName, some (enrichArgs resolver decoder args),
          (abiFunctionLookup abi functionName).map AbiItem.inputs)) := by
  constructor
  · intro resolver decoder target toAddr callData data decodedCall rest ts ds h1 h2 hfail
    unfold enrichArg
    rw [h1, h2]
    by_cases hc : (ts ≠ "" ∧ ds ≠ "" ∧ isHex ds = true ∧ ds ≠ "0x")
    · rcases hfail with hf | hf | ⟨abi, hf, hd⟩
      · simp [hc.1, hc.2.1, hc.2.2.1, hc.2.2.2, hf]
      · simp [hc.1, hc.2.1, hc.2.2.1, hc.2.2.2, hf]
      · simp [hc.1, hc.2.1, hc.2.2.1, hc.2.2.2, hf, hd]
    · simp [hc]
  · intro resolver decoder s cd abi functionName args h1 h2 h3 hr hd
    unfold decodeCallData
    simp [h1, h2, h3, hr, hd]

/-- Witness for `enrich_graceful_degradation`: the resolver `gfResolver`
throws for the nested target `"0xb"`, so the candidate node is returned
unchanged, while the parent decode of (`"0xa"`, `"0x01"`) still succeeds
with its three sibling arguments enriched positionally. -/
theorem enrich_graceful_degradation_w :
    enrichArg gfResolver gfDecoder (.obj (some "0xb") none (some "0x02") none none []) =
      .obj (some "0xb") none (some "0x02") none none [] ∧
    decodeCallData gfResolver gfDecoder (some "0xa") (some "0x01") =
      some ("outer",
        some (enrichArgs gfResolver gfDecoder
          [.prim "7", .obj (some "0xb") none (some "0x02") none none [], .prim "8"]),
        (abiFunctionLookup cexAbiOuter "outer").map AbiItem.inputs) :=
  ⟨enrich_graceful_degradation.1 gfResolver gfDecoder (some "0xb") none (some "0x02")
      none none [] "0xb" "0x02" rfl rfl (Or.inl rfl),
   enrich_graceful_degradation.2 gfResolver gfDecoder "0xa" "0x01" cexAbiOuter "outer"
      [.prim "7", .obj (some "0xb") none (some "0x02") none none [], .prim "8"]
      (by decide) (by decide) (by decide) rfl rfl⟩

/-! ## Claim C9: type-descriptor rendering -/

theorem dropWhile_eq_self_of_head {l : List Char}
    (h : (l.head?.all fun c => !isJsWhitespace c) = true) :
    l.dropWhile isJsWhitespace = l := by
  cases l with
  | nil => rfl
  | cons c cs =>
    simp only [List.head?_cons, Option.all_some, Bool.not_eq_true'] at h
    simp [List.dropWhile_cons, h]

theorem jsTrimList_eq_self {l : List Char} (h : noEdgeWs l = true) : jsTrimList l = l := by
  unfold noEdgeWs at h
  rw [Bool.and_eq_true] at h
  unfold jsTrimList
  rw [dropWhile_eq_self_of_head h.1,
    dropWhile_eq_self_of_head (by rw [List.head?_reverse]; exact h.2),
    List.reverse_reverse]

theorem jsTrimList_append_space {l : List Char} (hne : l ≠ []) (h : noEdgeWs l = true) :
    jsTrimList (l ++ [' ']) = l := by
  unfold noEdgeWs at h
  rw [Bool.and_eq_true] at h
  unfold jsTrimList
  have h1 : (l ++ [' ']).dropWhile isJsWhitespace = l ++ [' '] := by
    apply dropWhile_eq_self_of_head
    cases l with
    | nil => exact absurd rfl hne
    | cons c cs => simpa using h.1
  rw [h1, List.reverse_append]
  have h2 : (([' '].reverse ++ l.reverse).dropWhile isJsWhitespace) = l.reverse := by
    rw [show ([' '].reverse ++ l.reverse) = ' ' :: l.reverse from rfl,
      List.dropWhile_cons_of_pos (by decide)]
    exact dropWhile_eq_self_of_head (by rw [List.head?_reverse]; exact h.2)
  rw [h2, List.reverse_reverse]

/-- **C9** (confirmed).  A non-tuple descriptor renders as its bare type
string; a `tuple` with components renders as the parenthesized,
comma-joined component list; a `tuple[]` renders as the `tuple` rendering
suffixed with `"[]"`; each component renders as
`"<rendered component type> <component name>"` with the name omitted when
absent or empty (for components whose rendering and name carry no edge
whitespace, as ABI type strings and names do); and the rendering recurses,
as the depth-two example shows. -/
theorem formatAbiType_rendering :
    (∀ (t : String) (n : Option String) (comps : Option (List AbiParam)),
      t ≠ "tuple" → t ≠ "tuple[]" → formatAbiType ⟨t, n, comps⟩ = t) ∧
    (∀ (n : Option String) (cs : List AbiParam),
      formatAbiType ⟨"tuple", n, some cs⟩ = "(" ++ formatComponents cs ++ ")") ∧
    (∀ (n n' : Option String) (cs : List AbiParam),
      formatAbiType ⟨"tuple[]", n, some cs⟩ = formatAbiType ⟨"tuple", n', some cs⟩ ++ "[]") ∧
    (∀ c : AbiParam, (formatAbiType c).data ≠ [] →
      noEdgeWs (formatAbiType c).data = true →
      (jsNameOr c = "" → formatComponents [c] = formatAbiType c) ∧
      (jsNameOr c ≠ "" → noEdgeWs (jsNameOr c).data = true →
        formatComponents [c] = formatAbiType c ++ " " ++ jsNameOr c)) ∧
    (∀ (c : AbiParam) (cs : List AbiParam), cs ≠ [] →
      formatComponents (c :: cs) =
        jsTrim (formatAbiType c ++ " " ++ jsNameOr c) ++ ", " ++ formatComponents cs) ∧
    (formatAbiType ⟨"tuple", none, some [⟨"uint256", some "a", none⟩,
        ⟨"address", some "b", none⟩]⟩ = "(uint256 a, address b)" ∧
     formatAbiType ⟨"tuple[]", none, some [⟨"uint256", some "a", none⟩,
        ⟨"address", some "b", none⟩]⟩ = "(uint256 a, address b)[]" ∧
     formatAbiType ⟨"tuple", none, some [⟨"tuple", some "inner",
        some [⟨"uint256", some "x", none⟩]⟩, ⟨"bytes", none, none⟩]⟩ =
       "((uint256 x) inner, bytes)") := by
  refine ⟨?_, fun n cs => rfl, ?_, ?_, ?_, rfl, rfl, rfl⟩
  · intro t n comps h1 h2
    unfold formatAbiType
    rw [if_neg h1, if_neg h2]
  · intro n n' cs
    show "(" ++ formatComponents cs ++ ")[]" = "(" ++ formatComponents cs ++ ")" ++ "[]"
    rw [String.append_assoc ("(" ++ formatComponents cs) ")" "[]"]
    rfl
  · intro c hne hedge
    constructor
    · intro hname
      show jsTrim (formatAbiType c ++ " " ++ jsNameOr c) = formatAbiType c
      rw [hname]
      have hdata : (formatAbiType c ++ " " ++ "").data = (formatAbiType c).data ++ [' '] := by
        rw [String.data_append, String.data_append]
        simp
      show (⟨jsTrimList (formatAbiType c ++ " " ++ "").data⟩ : String) = formatAbiType c
      rw [hdata, jsTrimList_append_space hne hedge]
    · intro hname hnedge
      show jsTrim (formatAbiType c ++ " " ++ jsNameOr c) = formatAbiType c ++ " " ++ jsNameOr c
      have hdata : (formatAbiType c ++ " " ++ jsNameOr c).data =
          ((formatAbiType c).data ++ [' ']) ++ (jsNameOr c).data := by
        rw [String.data_append, String.data_append]
      show (⟨jsTrimList (formatAbiType c ++ " " ++ jsNameOr c).data⟩ : String) =
        formatAbiType c ++ " " ++ jsNameOr c
      have hok : noEdgeWs ((formatAbiType c).data ++ [' '] ++ (jsNameOr c).data) = true := by
        unfold noEdgeWs at hedge hnedge ⊢
        rw [Bool.and_eq_true] at hedge hnedge ⊢
        have hnne : (jsNameOr c).data ≠ [] := by
          intro hc
          exact hname (show jsNameOr c = "" from congrArg String.mk hc)
        constructor
        · rw [List.append_assoc,
            List.head?_append_of_ne_nil (formatAbiType c).data hne]
          exact hedge.1
        · rw [List.getLast?_append_of_ne_nil _ hnne]
          exact hnedge.2
      rw [hdata, jsTrimList_eq_self hok, ← hdata]
  · intro c cs hcs
    cases cs with
    | nil => exact absurd rfl hcs
    | cons c2 cs2 => rfl

/-- Witness for `formatAbiType_rendering` at concrete descriptors. -/
theorem formatAbiType_rendering_w :
    formatAbiType ⟨"uint256", some "a", none⟩ = "uint256" ∧
    formatComponents [⟨"address", some "b", none⟩] =
      formatAbiType ⟨"address", some "b", none⟩ ++ " " ++
        jsNameOr ⟨"address", some "b", none⟩ ∧
    formatComponents [⟨"bytes", none, none⟩] = formatAbiType ⟨"bytes", none, none⟩ ∧
    formatComponents (⟨"uint256", some "a", none⟩ :: [⟨"address", some "b", none⟩]) =
      jsTrim (formatAbiType ⟨"uint256", some "a", none⟩ ++ " " ++
        jsNameOr ⟨"uint256", some "a", none⟩) ++ ", " ++
        formatComponents [⟨"address", some "b", none⟩] :=
  ⟨formatAbiType_rendering.1 "uint256" (some "a") none (by decide) (by decide),
   (formatAbiType_rendering.2.2.2.1 ⟨"address", some "b", none⟩
      (by decide) (by decide)).2 (by decide) (by decide),
   (formatAbiType_rendering.2.2.2.1 ⟨"bytes", none, none⟩
      (by decide) (by decide)).1 (by decide),
   formatAbiType_rendering.2.2.2.2.1 ⟨"uint256", some "a", none⟩
      [⟨"address", some "b", none⟩] (by simp)⟩

/-! ## Claim C10: hash comparison -/

theorem hexCaseVariantChar_lower {a b : Char} (h : hexCaseVariantChar a b = true) :
    jsLowerChar a = jsLowerChar b := by
  unfold hexCaseVariantChar at h
  simp only [Bool.or_eq_true, Bool.and_eq_true, beq_iff_eq] at h
  rcases h with ((((((((((((rfl | ⟨rfl, rfl⟩) | ⟨rfl, rfl⟩) | ⟨rfl, rfl⟩) | ⟨rfl, rfl⟩) |
    ⟨rfl, rfl⟩) | ⟨rfl, rfl⟩) | ⟨rfl, rfl⟩) | ⟨rfl, rfl⟩) | ⟨rfl, rfl⟩) | ⟨rfl, rfl⟩) |
    ⟨rfl, rfl⟩) | ⟨rfl, rfl⟩) <;> rfl

theorem hexCaseVariantChar_ws {a b : Char} (h : hexCaseVariantChar a b = true) :
    isJsWhitespace a = isJsWhitespace b := by
  unfold hexCaseVariantChar at h
  simp only [Bool.or_eq_true, Bool.and_eq_true, beq_iff_eq] at h
  rcases h with ((((((((((((rfl | ⟨rfl, rfl⟩) | ⟨rfl, rfl⟩) | ⟨rfl, rfl⟩) | ⟨rfl, rfl⟩) |
    ⟨rfl, rfl⟩) | ⟨rfl, rfl⟩) | ⟨rfl, rfl⟩) | ⟨rfl, rfl⟩) | ⟨rfl, rfl⟩) | ⟨rfl, rfl⟩) |
    ⟨rfl, rfl⟩) | ⟨rfl, rfl⟩) <;> rfl

theorem hexCaseVariantL_cons {a b : Char} {as bs : List Char}
    (h : hexCaseVariantL (a :: as) (b :: bs) = true) :
    hexCaseVariantChar a b = true ∧ hexCaseVariantL as bs = true := by
  simpa [hexCaseVariantL] using h

theorem hexCaseVariantL_lower :
    ∀ {l l' : List Char}, hexCaseVariantL l l' = true →
      l.map jsLowerChar = l'.map jsLowerChar
  | [], [], _ => rfl
  | a :: as, b :: bs, h => by
    have h2 := hexCaseVariantL_cons h
    simp only [List.map_cons]
    rw [hexCaseVariantChar_lower h2.1, hexCaseVariantL_lower h2.2]
  | [], _ :: _, h => by simp [hexCaseVariantL] at h
  | _ :: _, [], h => by simp [hexCaseVariantL] at h

theorem hexCaseVariantL_dropWhile :
    ∀ {l l' : List Char}, hexCaseVariantL l l' = true →
      hexCaseVariantL (l.dropWhile isJsWhitespace) (l'.dropWhile isJsWhitespace) = true
  | [], [], _ => rfl
  | a :: as, b :: bs, h => by
    have h2 := hexCaseVariantL_cons h
    rw [List.dropWhile_cons, List.dropWhile_cons]
    cases hw : isJsWhitespace a with
    | true =>
      have hw' : isJsWhitespace b = true := (hexCaseVariantChar_ws h2.1).symm.trans hw
      simp only [hw, hw', if_true]
      exact hexCaseVariantL_dropWhile h2.2
    | false =>
      have hw' : isJsWhitespace b = false := (hexCaseVariantChar_ws h2.1).symm.trans hw
      simp only [hw, hw', Bool.false_eq_true, if_false]
      exact h
  | [], _ :: _, h => by simp [hexCaseVariantL] at h
  | _ :: _, [], h => by simp [hexCaseVariantL] at h

theorem hexCaseVariantL_append :
    ∀ {l l' m m' : List Char}, hexCaseVariantL l l' = true →
      hexCaseVariantL m m' = true → hexCaseVariantL (l ++ m) (l' ++ m') = true
  | [], [], m, m', _, hm => by simpa using hm
  | a :: as, b :: bs, m, m', h, hm => by
    have h2 := hexCaseVariantL_cons h
    simp only [List.cons_append, hexCaseVariantL, Bool.and_eq_true]
    exact ⟨h2.1, hexCaseVariantL_append h2.2 hm⟩
  | [], _ :: _, _, _, h, _ => by simp [hexCaseVariantL] at h
  | _ :: _, [], _, _, h, _ => by simp [hexCaseVariantL] at h

theorem hexCaseVariantL_reverse {l l' : List Char} (h : hexCaseVariantL l l' = true) :
    hexCaseVariantL l.reverse l'.reverse = true := by
  induction l generalizing l' with
  | nil =>
    cases l' with
    | nil => rfl
    | cons b bs => simp [hexCaseVariantL] at h
  | cons a as ih =>
    cases l' with
    | nil => simp [hexCaseVariantL] at h
    | cons b bs =>
      have h2 := hexCaseVariantL_cons h
      simp only [List.reverse_cons]
      exact hexCaseVariantL_append (ih h2.2)
        (by simp [hexCaseVariantL, h2.1])

theorem hexCaseVariantL_trim {l l' : List Char} (h : hexCaseVariantL l l' = true) :
    hexCaseVariantL (jsTrimList l) (jsTrimList l') = true := by
  unfold jsTrimList
  exact hexCaseVariantL_reverse (hexCaseVariantL_dropWhile
    (hexCaseVariantL_reverse (hexCaseVariantL_dropWhile h)))

theorem dropWhile_append_of_all {p : Char → Bool} {l₁ l₂ : List Char}
    (h : l₁.all p = true) : (l₁ ++ l₂).dropWhile p = l₂.dropWhile p := by
  induction l₁ with
  | nil => rfl
  | cons a as ih =>
    rw [List.all_cons, Bool.and_eq_true] at h
    rw [List.cons_append, List.dropWhile_cons_of_pos h.1]
    exact ih h.2

theorem dropWhile_eq_nil_of_all {p : Char → Bool} {l : List Char}
    (h : l.all p = true) : l.dropWhile p = [] := by
  induction l with
  | nil => rfl
  | cons a as ih =>
    rw [List.all_cons, Bool.and_eq_true] at h
    rw [List.dropWhile_cons_of_pos h.1]
    exact ih h.2

theorem jsTrimList_ws_append {pre suf l : List Char}
    (hpre : pre.all isJsWhitespace = true) (hsuf : suf.all isJsWhitespace = true) :
    jsTrimList (pre ++ l ++ suf) = jsTrimList l := by
  unfold jsTrimList
  rw [List.append_assoc, dropWhile_append_of_all hpre]
  rcases hdl : l.dropWhile isJsWhitespace with _ | ⟨c, cs⟩
  · rw [List.dropWhile_append, hdl]
    simp only [List.isEmpty_nil, if_true]
    rw [dropWhile_eq_nil_of_all hsuf]
  · rw [List.dropWhile_append, hdl]
    simp only [List.isEmpty_cons, Bool.false_eq_true, if_false]
    rw [List.reverse_append,
      dropWhile_append_of_all (by rw [List.all_reverse]; exact hsuf)]

theorem string_eq_empty_iff {s : String} : s = "" ↔ s.data = [] := by
  cases s with
  | mk l =>
    constructor
    · intro h
      exact congrArg String.data h
    · intro h
      exact congrArg String.mk h

/-- **C10** (confirmed).  The `hashesMatch` chain produces a boolean
verdict exactly when the trimmed expected hash is non-empty and a computed
hash is present; the verdict is unchanged when either string is rewritten
with different hex-letter case, and unchanged when the expected hash gains
surrounding whitespace. -/
theorem hashesMatch_normalization :
    (∀ (e : String) (c : Option String),
      hashesMatch e c ≠ none ↔ (jsTrim e ≠ "" ∧ c ≠ none)) ∧
    (∀ (e e' : String) (c c' : Option String),
      hexCaseVariant e e' = true → optHexCaseVariant c c' = true →
      hashesMatch e c = hashesMatch e' c') ∧
    (∀ (e : String) (c : Option String) (pre suf : String),
      pre.data.all isJsWhitespace = true → suf.data.all isJsWhitespace = true →
      hashesMatch (pre ++ e ++ suf) c = hashesMatch e c) := by
  refine ⟨?_, ?_, ?_⟩
  · intro e c
    unfold hashesMatch
    have hdata : (jsToLowerCase (jsTrim e)).data = (jsTrim e).data.map jsLowerChar := rfl
    by_cases he : (jsToLowerCase (jsTrim e)).data = []
    · rw [if_pos he]
      rw [hdata, List.map_eq_nil_iff] at he
      simp [string_eq_empty_iff, he]
    · rw [if_neg he]
      rw [hdata, List.map_eq_nil_iff] at he
      cases c with
      | none => simp
      | some ch => simp [string_eq_empty_iff, he]
  · intro e e' c c' he hc
    have htrim : jsToLowerCase (jsTrim e) = jsToLowerCase (jsTrim e') :=
      congrArg String.mk (hexCaseVariantL_lower (hexCaseVariantL_trim he))
    unfold hashesMatch
    rw [htrim]
    cases c with
    | none =>
      cases c' with
      | none => rfl
      | some b => simp [optHexCaseVariant] at hc
    | some a =>
      cases c' with
      | none => simp [optHexCaseVariant] at hc
      | some b =>
        have hlow : jsToLowerCase a = jsToLowerCase b :=
          congrArg String.mk (hexCaseVariantL_lower
            (by simpa [optHexCaseVariant, hexCaseVariant] using hc))
        simp [hlow]
  · intro e c pre suf hpre hsuf
    have htrim : jsTrim (pre ++ e ++ suf) = jsTrim e := by
      have hdata : (pre ++ e ++ suf).data = pre.data ++ e.data ++ suf.data := by
        rw [String.data_append, String.data_append]
      show (⟨jsTrimList (pre ++ e ++ suf).data⟩ : String) = ⟨jsTrimList e.data⟩
      rw [hdata, jsTrimList_ws_append hpre hsuf]
    unfold hashesMatch
    rw [htrim]

/-- Witness for `hashesMatch_normalization` at concrete hashes. -/
theorem hashesMatch_normalization_w :
    (hashesMatch "0xAb" (some "0xab") ≠ none ↔
      (jsTrim "0xAb" ≠ "" ∧ (some "0xab" : Option String) ≠ none)) ∧
    hashesMatch "0xAb" (some "0xAB") = hashesMatch "0xaB" (some "0xab") ∧
    hashesMatch (" " ++ "0xab" ++ " ") (some "0xab") = hashesMatch "0xab" (some "0xab") :=
  ⟨hashesMatch_normalization.1 "0xAb" (some "0xab"),
   hashesMatch_normalization.2.1 "0xAb" "0xaB" (some "0xAB") (some "0xab")
     (by decide) (by decide),
   hashesMatch_normalization.2.2 "0xab" (some "0xab") " " " " (by decide) (by decide)⟩
